import Mathlib

/-!
Shallow embedding of the optgen code generator (main.go and helpers/helpers.go).

The generator walks Go AST struct declarations and synthesizes functional-option
code.  We embed the decision core: struct-tag interpretation, type
classification, naming policy, the per-field selection of generated
declarations, the debug-map statement dispatch, and the runtime meaning of the
emitted debug statements.  Go AST nodes become inductive types; each
write*AST emitter is modelled as a function returning the abstract
declarations it appends to the output buffer, with each constructor of
the declaration type recording exactly the identifiers the emitter
interpolates into the code it builds.  Fatal diagnostics (fmt.Printf
followed by os.Exit(1) in the source) become Except errors carrying the
formatted data.
-/

namespace Optgen

/-- Go AST type expressions (go/ast.Expr), restricted to the shapes main.go
inspects.  sized in arrayType models ArrayType.Len being non-nil.
otherExpr stands for any expression shape main.go sends to a default case
(e.g. struct literals, func types). -/
inductive TypeExpr where
  | ident (name : String)
  | star (inner : TypeExpr)
  | selector (pkg : String) (sel : String)
  | arrayType (sized : Bool) (elem : TypeExpr)
  | mapType (key : TypeExpr) (value : TypeExpr)
  | interfaceType
  | chanType (elem : TypeExpr)
  | indexExpr (base : TypeExpr) (arg : TypeExpr)
  | otherExpr
deriving DecidableEq, Repr

/-- One Go struct field (go/ast.Field).  names is Field.Names, with the empty
list modelling an anonymous (embedded) field.  tags models the parsed struct
tag as a key/value association list; the external structtag library is the
part that turns the raw tag text into this lookup structure.  Field.Type is
never nil for source parsed by go/parser, so type is total here. -/
structure Field where
  names : List String
  type : TypeExpr
  tags : List (String × String)
deriving DecidableEq, Repr

/-- A Go source file as far as main.go consults it: the named struct type
declarations in file order (findStructDefInFile takes the first match). -/
structure GoFile where
  structs : List (String × List Field)
deriving DecidableEq, Repr

/-- ImportResolver from main.go: maps package names to import paths. -/
structure ImportResolver where
  pkgToPath : List (String × String)
deriving DecidableEq, Repr

/-- ImportResolver.Resolve: look up the package name, falling back to the
name itself for single-component standard-library imports. -/
def ImportResolver.Resolve (r : ImportResolver) (pkgName : String) : String :=
  match r.pkgToPath.lookup pkgName with
  | some path => path
  | none => pkgName

/-- ast.IsExported: whether the first character of the identifier is upper
case (ASCII suffices for the identifiers handled here). -/
def isExported (name : String) : Bool :=
  match name.toList with
  | [] => false
  | c :: _ => c.isUpper

/-- Whether the first list is a leading segment of the second. -/
def leadsChars : List Char → List Char → Bool
  | [], _ => true
  | _ :: _, [] => false
  | a :: as, b :: bs => a == b && leadsChars as bs

/-- Whether sub occurs as a contiguous segment of s, scanning left to
right. -/
def containsFrom (sub : List Char) : List Char → Bool
  | [] => sub.isEmpty
  | c :: rest => leadsChars sub (c :: rest) || containsFrom sub rest

/-- strings.Contains: sub occurs as a contiguous substring of s. -/
def goContains (s sub : String) : Bool :=
  containsFrom sub.toList s.toList

/-- strings.ToLower restricted to ASCII, which covers the identifiers and
configured substrings handled here. -/
def goToLower (s : String) : String :=
  String.mk (s.toList.map Char.toLower)

/-- The ASCII white-space characters strings.TrimSpace strips. -/
def isSpaceChar (c : Char) : Bool :=
  c == ' ' || c == '\t' || c == '\n' || c == '\x0b' || c == '\x0c' || c == '\r'

/-- strings.TrimSpace restricted to ASCII white space. -/
def goTrim (s : String) : String :=
  String.mk (((s.toList.dropWhile isSpaceChar).reverse.dropWhile isSpaceChar).reverse)

/-- Split a character list at every occurrence of sep (strings.Split). -/
def splitOnChar (sep : Char) : List Char → List (List Char)
  | [] => [[]]
  | a :: rest =>
    let r := splitOnChar sep rest
    if a == sep then [] :: r
    else
      match r with
      | g :: gs => (a :: g) :: gs
      | [] => [[a]]

/-- strings.Split on a single-character separator. -/
def goSplit (s : String) (sep : Char) : List String :=
  (splitOnChar sep s.toList).map String.mk

/-- Break a character list at the first occurrence of sep; none when sep
does not occur. -/
def breakAtChar (sep : Char) : List Char → List Char × Option (List Char)
  | [] => ([], none)
  | a :: rest =>
    if a == sep then ([], some rest)
    else
      let r := breakAtChar sep rest
      (a :: r.1, r.2)

/-- Fatal diagnostics: each constructor corresponds to one
fmt.Printf + os.Exit(1) site in main.go and records the data that printf
formats into the message.  mustBeSensitive is the validateNotSensitive
diagnostic, which names both the field and the struct type. -/
inductive Fatal where
  | unknownAction (action : String) (fieldName : String)
  | invalidFlattenDepth (value : String) (fieldName : String)
  | unknownOption (opt : String) (fieldName : String)
  | missingDebugTag (fieldName : String) (typeName : String)
  | mustBeSensitive (fieldName : String) (typeName : String)
  | unknownDebugValue (value : String) (fieldName : String) (typeName : String)
deriving DecidableEq, Repr

/-- Errors of the embedded generator.  fatal embeds a diagnose-and-abort exit;
fuelExhausted is an artifact of the embedding only: the flatten recursion in
the source has no termination guard for unlimited depth, so the embedding
carries explicit fuel and reports its exhaustion as an error. -/
inductive GenError where
  | fatal (f : Fatal)
  | fuelExhausted
deriving DecidableEq, Repr

instance {e a : Type} [DecidableEq e] [DecidableEq a] : DecidableEq (Except e a) :=
  fun x y =>
    match x, y with
    | .ok u, .ok w =>
      if h : u = w then .isTrue (by rw [h])
      else .isFalse (by intro hc; cases hc; exact h rfl)
    | .error u, .error w =>
      if h : u = w then .isTrue (by rw [h])
      else .isFalse (by intro hc; cases hc; exact h rfl)
    | .ok _, .error _ => .isFalse (by intro hc; cases hc)
    | .error _, .ok _ => .isFalse (by intro hc; cases hc)

/-- parseStructTag: fetch the value stored under tagKey in the field tag;
none models the error return (missing tag or missing key). -/
def parseStructTag (field : Field) (tagKey : String) : Option String :=
  field.tags.lookup tagKey

def DebugMapFieldTag : String := "debugmap"
def OptgenFieldTag : String := "optgen"
def OptgenGenerate : String := "generate"
def OptgenSkip : String := "skip"
def OptgenReadonly : String := "readonly"
def typeCategoryPrimitive : String := "primitive"
def typeCategoryPointer : String := "pointer"
def typeCategorySlice : String := "slice"
def typeCategoryMap : String := "map"

/-- OptgenTagInfo from main.go, field for field. -/
structure OptgenTagInfo where
  Action : String
  Visibility : String
  Recursive : Bool
  Flatten : Bool
  FlattenDepth : Int
  FlattenPrefix : String
deriving DecidableEq, Repr

/-- strconv.Atoi: optional sign followed by decimal digits (bit-width
overflow is irrelevant for the depths handled here). -/
def goAtoi (s : String) : Option Int :=
  let withSign :=
    match s.toList with
    | '+' :: rest => some ((1 : Int), rest)
    | '-' :: rest => some ((-1 : Int), rest)
    | rest => some ((1 : Int), rest)
  match withSign with
  | some (sign, digits) =>
    if digits.isEmpty then none
    else if digits.all Char.isDigit then
      some (sign * (digits.foldl (fun acc c => acc * 10 + (c.toNat - 48)) 0 : Nat))
    else none
  | none => none

/-- strings.SplitN with n = 2 on a single-character separator: the part
before the first separator and the whole remainder after it. -/
def goSplitN2 (s : String) (sep : Char) : String × String :=
  match breakAtChar sep s.toList with
  | (before, some after) => (String.mk before, String.mk after)
  | (before, none) => (String.mk before, "")

/-- One iteration of the option loop of parseOptgenTag (main.go lines
379-420): interpret a single comma-separated token after the action. -/
def applyOptgenOption (fieldName : String) (info : OptgenTagInfo) (rawPart : String) :
    Except GenError OptgenTagInfo :=
  let part := goTrim rawPart
  if goContains part ":" then
    let kv := goSplitN2 part ':'
    let key := goTrim kv.1
    let value := goTrim kv.2
    if key = "flatten" then
      match goAtoi value with
      | some depth =>
        if depth < 0 then .error (.fatal (.invalidFlattenDepth value fieldName))
        else .ok { info with Flatten := true, FlattenDepth := depth }
      | none => .error (.fatal (.invalidFlattenDepth value fieldName))
    else if key = "prefix" then
      .ok { info with FlattenPrefix := value }
    else
      .error (.fatal (.unknownOption key fieldName))
  else
    if part = "public" ∨ part = "private" then
      .ok { info with Visibility := part }
    else if part = "recursive" then
      .ok { info with Recursive := true }
    else if part = "flatten" then
      .ok { info with Flatten := true, FlattenDepth := 0 }
    else
      .error (.fatal (.unknownOption part fieldName))

/-- Fold the option loop over the remaining comma-separated parts. -/
def applyOptgenOptions (fieldName : String) : OptgenTagInfo → List String →
    Except GenError OptgenTagInfo
  | info, [] => .ok info
  | info, p :: rest =>
    match applyOptgenOption fieldName info p with
    | .error e => .error e
    | .ok info' => applyOptgenOptions fieldName info' rest

/-- parseOptgenTag from main.go: anonymous fields default to skip; a missing
tag defaults by exportedness; otherwise the first comma-separated token is
the action (validated) and the rest are flags or key:value options.  The
Bool result mirrors the second return value of the source (tag present). -/
def parseOptgenTag (field : Field) : Except GenError (OptgenTagInfo × Bool) :=
  match field.names with
  | [] =>
    .ok ({ Action := OptgenSkip, Visibility := "default", Recursive := false,
           Flatten := false, FlattenDepth := 0, FlattenPrefix := "" }, false)
  | name0 :: _ =>
    let isExp := isExported name0
    match parseStructTag field OptgenFieldTag with
    | none =>
      let action := if isExp then OptgenGenerate else OptgenSkip
      .ok ({ Action := action, Visibility := "default", Recursive := false,
             Flatten := false, FlattenDepth := 0, FlattenPrefix := "" }, false)
    | some tagValue =>
      let parts := goSplit tagValue ','
      let info : OptgenTagInfo :=
        { Action := goTrim (parts.headD ""), Visibility := "default",
          Recursive := false, Flatten := false, FlattenDepth := 0,
          FlattenPrefix := "" }
      if info.Action = OptgenGenerate ∨ info.Action = OptgenSkip ∨
          info.Action = OptgenReadonly then
        match applyOptgenOptions name0 info parts.tail with
        | .ok info' => .ok (info', true)
        | .error e => .error e
      else
        .error (.fatal (.unknownAction info.Action name0))

/-- unexport from main.go: lower-case the first character, leave the rest
unchanged (ASCII suffices for the identifiers handled here). -/
def unexport (s : String) : String :=
  match s.toList with
  | [] => s
  | c :: rest => String.mk (c.toLower :: rest)

/-- toTitle from main.go: upper-case the first character only. -/
def toTitle (s : String) : String :=
  match s.toList with
  | [] => s
  | c :: rest => String.mk (c.toUpper :: rest)

/-- formatFunctionName from main.go: verb ++ struct-prefix ++ TitleCase field
name, de-exported as a whole when the resolved visibility is private.  The
first parameter is named prefix in the source. -/
def formatFunctionName (verb fieldName structPfx : String) (makePublic : Bool) : String :=
  let name := verb ++ structPfx ++ toTitle fieldName
  if makePublic then name else unexport name

/-- Per-struct generation configuration (main.go Config), without the
jen-specific StructRef and PkgPath fields. -/
structure Config where
  ReceiverId : String
  OptTypeName : String
  TargetTypeName : String
  StructName : String
  UsePrefix : Bool
  UseFlatten : Bool
deriving DecidableEq, Repr

/-- The prefix method on Config: the struct name when UsePrefix is set. -/
def Config.structPfx (c : Config) : String :=
  if c.UsePrefix then c.StructName else ""

/-- The builtin identifiers that getTypeCategory classifies as primitive. -/
def primitiveIdentNames : List String :=
  ["string", "int", "int8", "int16", "int32", "int64",
   "uint", "uint8", "uint16", "uint32", "uint64",
   "bool", "float32", "float64"]

/-- The builtin identifiers that isStructTypeAST and isSamePackageStruct rule
out as struct candidates. -/
def builtinIdentNames : List String :=
  ["string", "int", "int8", "int16", "int32", "int64",
   "uint", "uint8", "uint16", "uint32", "uint64", "uintptr",
   "bool", "float32", "float64", "complex64", "complex128",
   "byte", "rune", "error", "any"]

/-- getTypeCategory from main.go: category of a type for debug generation. -/
def getTypeCategory : TypeExpr → String
  | .ident n => if primitiveIdentNames.contains n then typeCategoryPrimitive else "complex"
  | .star _ => typeCategoryPointer
  | .arrayType sized _ => if sized then "array" else typeCategorySlice
  | .mapType _ _ => typeCategoryMap
  | _ => "complex"

/-- isStructTypeAST from main.go: unwrap one pointer level, then decide
whether the expression could denote a struct type and from which package
(empty string means the scanned package itself). -/
def isStructTypeAST (e : TypeExpr) (resolver : ImportResolver) : Bool × String :=
  let e' := match e with
    | .star inner => inner
    | other => other
  match e' with
  | .ident n => if builtinIdentNames.contains n then (false, "") else (true, "")
  | .selector pkg _ => (true, resolver.Resolve pkg)
  | .indexExpr _ _ => (false, "")
  | _ => (false, "")

/-- isStringType from main.go. -/
def isStringType : TypeExpr → Bool
  | .ident n => n = "string"
  | _ => false

/-- isSliceOrArrayAST from main.go. -/
def isSliceOrArrayAST : TypeExpr → Bool
  | .arrayType _ _ => true
  | _ => false

/-- isMapAST from main.go. -/
def isMapAST : TypeExpr → Bool
  | .mapType _ _ => true
  | _ => false

/-- getStructTypeName from main.go: unwrap one pointer level and take the
identifier (or the selector member name); empty string otherwise. -/
def getStructTypeName (e : TypeExpr) : String :=
  let e' := match e with
    | .star inner => inner
    | other => other
  match e' with
  | .ident n => n
  | .selector _ sel => sel
  | _ => ""

/-- getSliceElementType from main.go: the element type of an array/slice. -/
def getSliceElementType : TypeExpr → Option TypeExpr
  | .arrayType _ elem => some elem
  | _ => none

/-- findStructDefInFile from main.go: the first struct declaration with the
given name, in file order. -/
def findStructDefInFile (file : GoFile) (typeName : String) : Option (List Field) :=
  match file.structs.find? (fun p => p.1 = typeName) with
  | some p => some p.2
  | none => none

/-- Abstraction of one generated option declaration.  Each constructor
corresponds to one emitter in main.go and records the identifiers that
emitter interpolates into the code it renders:
* setter is writeSetterOptAST (used by the standard, Set-replace and struct
  direct setters): func funcName(paramName T) Opt assigning
  receiver.targetField = paramName;
* sliceAppendSetter is writeSliceWithOptAST: the body appends paramName to
  receiver.targetField;
* mapEntrySetter is writeMapWithOptAST: the body stores the key/value pair
  into receiver.targetField;
* recursiveSetter is writeStructRecursiveSetterAST: func funcName(opts
  ...optTypeName) Opt assigning receiver.targetField = *ctorName(opts...);
* flatSetter is the per-nested-field emission of writeFlattenedOptFuncsAST:
  func funcName(paramName T) Opt assigning
  receiver.rootField.nestedField = paramName. -/
inductive Decl where
  | setter (funcName : String) (paramName : String) (targetField : String)
  | sliceAppendSetter (funcName : String) (paramName : String) (targetField : String)
  | mapEntrySetter (funcName : String) (targetField : String)
  | recursiveSetter (funcName : String) (optTypeName : String) (ctorName : String)
      (targetField : String)
  | flatSetter (funcName : String) (paramName : String) (rootField : String)
      (nestedField : String)
deriving DecidableEq, Repr

/-- Concatenating monadic map over a list in the Except monad, modelling the
generator loops that append declarations per element and abort on the first
fatal diagnostic. -/
def exFlatMap : List α → (α → Except GenError (List β)) → Except GenError (List β)
  | [], _ => .ok []
  | x :: rest, f =>
    match f x with
    | .error e => .error e
    | .ok ys =>
      match exFlatMap rest f with
      | .error e => .error e
      | .ok zs => .ok (ys ++ zs)

/-- writeNewXWithOptionsAST constructor name: the build-from-scratch
constructor that applies the options to a zero value. -/
def newXWithOptionsName (targetTypeName : String) : String :=
  "New" ++ targetTypeName ++ "WithOptions"

/-- writeNewXWithOptionsAndDefaultsAST constructor name: the constructor that
first delegates to defaults.MustSet and then applies the options. -/
def newXWithOptionsAndDefaultsName (targetTypeName : String) : String :=
  "New" ++ targetTypeName ++ "WithOptionsAndDefaults"

/-- writeSetterOptAST from main.go: one direct-assignment setter. -/
def writeSetterOpt (verb fieldName : String) (c : Config) (makePublic : Bool) : Decl :=
  .setter (formatFunctionName verb fieldName c.structPfx makePublic)
    (unexport fieldName) (toTitle fieldName)

/-- writeStructRecursiveSetterAST from main.go: for a field whose type names
a struct, emit one Options-suffixed setter taking the nested type's variadic
options and assigning the dereferenced result of
New(typeName)WithOptions(opts...) to the field; nothing is emitted when the
type name cannot be extracted. -/
def writeStructRecursiveSetter (fieldName : String) (fieldType : TypeExpr)
    (c : Config) (makePublic : Bool) : List Decl :=
  let typeName := getStructTypeName fieldType
  if typeName = "" then []
  else
    [.recursiveSetter
      (formatFunctionName "With" (fieldName ++ "Options") c.structPfx makePublic)
      (typeName ++ "Option")
      ("New" ++ typeName ++ "WithOptions")
      (toTitle fieldName)]

/-- writeFlattenedOptFuncsAST from main.go.  The source recursion has no
termination guard beyond the depth counter, so the embedding takes explicit
fuel, decremented once per nesting level; fuel exhaustion is reported as
GenError.fuelExhausted and is unreachable whenever maxDepth is positive and
the fuel is at least maxDepth - currentDepth + 2.  pfx is the parameter
named prefix in the source.  Per eligible nested field (named, exported,
action neither skip nor readonly) one flatSetter is emitted, then the
recursion descends into nested same-package struct fields with the depth
counter incremented and the accumulated names extended. -/
def writeFlattenedOptFuncs : Nat → GoFile → Config → ImportResolver → String →
    TypeExpr → String → Int → Int → Bool → Except GenError (List Decl)
  | 0, _, _, _, _, _, _, _, _, _ => .error .fuelExhausted
  | fuel + 1, file, c, resolver, parentFieldName, fieldType, pfx, currentDepth,
      maxDepth, makePublic =>
    if maxDepth > 0 ∧ currentDepth > maxDepth then .ok []
    else
      let typeName := getStructTypeName fieldType
      if typeName = "" then .ok []
      else
        match findStructDefInFile file typeName with
        | none => .ok []
        | some nestedFields =>
          exFlatMap nestedFields (fun nestedField =>
            exFlatMap nestedField.names (fun nestedFieldName =>
              if isExported nestedFieldName = false then .ok []
              else
                match parseOptgenTag nestedField with
                | .error e => .error e
                | .ok parsed =>
                  if parsed.1.Action = OptgenSkip ∨
                      parsed.1.Action = OptgenReadonly then
                    .ok []
                  else
                    let decl : Decl :=
                      .flatSetter
                        (formatFunctionName "With"
                          (toTitle pfx ++ toTitle nestedFieldName)
                          c.structPfx makePublic)
                        (unexport nestedFieldName)
                        (toTitle parentFieldName) (toTitle nestedFieldName)
                    let st := isStructTypeAST nestedField.type resolver
                    let recRes :=
                      if st.1 = true ∧ st.2 = "" then
                        writeFlattenedOptFuncs fuel file c resolver
                          (parentFieldName ++ "." ++ nestedFieldName)
                          nestedField.type
                          (toTitle pfx ++ toTitle nestedFieldName)
                          (currentDepth + 1) maxDepth makePublic
                      else
                        .ok []
                    match recRes with
                    | .error e => .error e
                    | .ok recDecls => .ok (decl :: recDecls)))

/-- Visibility resolution from writeAllWithOptFuncsAST (main.go lines
731-736): an explicit public or private override wins, otherwise the
field's own exportedness decides. -/
def resolveMakePublic (visibility : String) (isExp : Bool) : Bool :=
  if visibility = "public" then true
  else if visibility = "private" then false
  else isExp

/-- The body of the per-name loop of writeAllWithOptFuncsAST (main.go lines
718-780): declarations generated for one name of one field.  Skip and
readonly fields generate nothing; visibility overrides resolve against the
exportedness of the name; same-package struct types get a direct setter plus
the optional recursive and flatten variants; slices and maps get an
append/add setter plus a Set-replace setter; everything else gets the
standard setter. -/
def optFuncsForFieldName (file : GoFile) (resolver : ImportResolver) (c : Config)
    (fuel : Nat) (field : Field) (fieldName : String) :
    Except GenError (List Decl) :=
  match parseOptgenTag field with
  | .error e => .error e
  | .ok parsed =>
    let tagInfo := parsed.1
    if tagInfo.Action = OptgenSkip ∨ tagInfo.Action = OptgenReadonly then
      .ok []
    else
      let makePublic := resolveMakePublic tagInfo.Visibility (isExported fieldName)
      let st := isStructTypeAST field.type resolver
      if st.1 = true ∧ st.2 = "" then
        let direct := writeSetterOpt "With" fieldName c makePublic
        let recDecls :=
          if tagInfo.Recursive then
            writeStructRecursiveSetter fieldName field.type c makePublic
          else []
        let flatRes :=
          if tagInfo.Flatten ∨ c.UseFlatten then
            writeFlattenedOptFuncs fuel file c resolver fieldName field.type
              (if tagInfo.FlattenPrefix = "" then fieldName else tagInfo.FlattenPrefix)
              1 tagInfo.FlattenDepth makePublic
          else .ok []
        match flatRes with
        | .error e => .error e
        | .ok flatDecls => .ok ([direct] ++ recDecls ++ flatDecls)
      else if isSliceOrArrayAST field.type then
        .ok [.sliceAppendSetter
            (formatFunctionName "With" fieldName c.structPfx makePublic)
            (unexport fieldName) (toTitle fieldName),
          writeSetterOpt "Set" fieldName c makePublic]
      else if isMapAST field.type then
        .ok [.mapEntrySetter
            (formatFunctionName "With" fieldName c.structPfx makePublic)
            (toTitle fieldName),
          writeSetterOpt "Set" fieldName c makePublic]
      else
        .ok [writeSetterOpt "With" fieldName c makePublic]

/-- Declarations generated by writeAllWithOptFuncsAST for one field:
anonymous fields are skipped, named fields contribute per name. -/
def optFuncsForField (file : GoFile) (resolver : ImportResolver) (c : Config)
    (fuel : Nat) (field : Field) : Except GenError (List Decl) :=
  match field.names with
  | [] => .ok []
  | names => exFlatMap names (optFuncsForFieldName file resolver c fuel field)

/-- writeAllWithOptFuncsAST over a whole struct. -/
def writeAllWithOptFuncs (file : GoFile) (resolver : ImportResolver) (c : Config)
    (fuel : Nat) (st : List Field) : Except GenError (List Decl) :=
  exFlatMap st (optFuncsForField file resolver c fuel)

/-- The per-field loop body of writeToOptionAST (main.go lines 525-537): the
names of the assignments target.name = receiver.name emitted into the
returned option, one per exported name whose action is not skip.  The tag is
only consulted for exported names, and the readonly action is included. -/
def toOptionAssignsForField (field : Field) : Except GenError (List String) :=
  exFlatMap field.names (fun name =>
    if isExported name then
      match parseOptgenTag field with
      | .error e => .error e
      | .ok parsed =>
        if parsed.1.Action = OptgenSkip then .ok []
        else .ok [name]
    else
      .ok [])

/-- writeToOptionAST over a whole struct: the ordered list of field names the
snapshot-to-option copies from the source instance onto the target. -/
def writeToOptionAssigns (st : List Field) : Except GenError (List String) :=
  exFlatMap st toOptionAssignsForField

/-- Runtime meaning of the assignment sequence emitted by writeToOptionAST:
model an instance as a valuation of field names and run the assignments
to.name = src.name in order. -/
def applyToOptionAssigns {α : Type} (names : List String) (src tgt : String → α) :
    String → α :=
  names.foldl (fun acc n => fun m => if m = n then src n else acc m) tgt

/-- validateNotSensitive from main.go: abort when the lower-cased field name
contains one of the configured substrings (main.go lowers only the field
name, not the configured substring). -/
def validateNotSensitive (fieldName typeName : String)
    (sensitiveNameMatches : List String) : Except GenError Unit :=
  match sensitiveNameMatches.find? (fun s => goContains (goToLower fieldName) s) with
  | some _ => .error (.fatal (.mustBeSensitive fieldName typeName))
  | none => .ok ()

/-- Abstraction of the debug-map statement generated for one field.  Each
constructor corresponds to one generateDebugCodeFor* emitter in main.go and
records the key under which the emitted statement stores into the debug map:
* primString: empty-string test, from generateDebugCodeForPrimitive;
* primDirect: direct assignment of a non-string primitive;
* pointerNilCheck: nil test then dereference, from
  generateDebugCodeForPointer;
* sliceSize and mapSize: nil test then a size placeholder, from
  generateDebugCodeForCollectionSize;
* sliceFormat: nil test then element expansion (with the empty-string
  substitution when the element type is string), from
  generateDebugCodeForSliceFormat;
* mapFormat: nil test then a Sprintf dump;
* structDebugMap: store the nested DebugMap() result, from
  generateDebugCodeForStruct;
* structFlatMerge: merge the nested FlatDebugMap() under dotted keys, from
  generateDebugCodeForStructFormat;
* foreignSprintf: Sprintf dump of a cross-package value;
* directAssign: the complex-type default assignment;
* sensitivePointer, sensitiveString, sensitiveAlways: the three branches of
  generateDebugCodeForSensitive. -/
inductive DebugStmt where
  | primString (fieldName : String)
  | primDirect (fieldName : String)
  | pointerNilCheck (fieldName : String)
  | sliceSize (fieldName : String)
  | sliceFormat (fieldName : String) (elemIsString : Bool)
  | mapSize (fieldName : String)
  | mapFormat (fieldName : String)
  | structDebugMap (fieldName : String)
  | structFlatMerge (fieldName : String)
  | foreignSprintf (fieldName : String)
  | directAssign (fieldName : String)
  | sensitivePointer (fieldName : String)
  | sensitiveString (fieldName : String)
  | sensitiveAlways (fieldName : String)
deriving DecidableEq, Repr

/-- generateDebugCodeByCategory from main.go: same-package struct types go to
the nested-map statements, cross-package struct types to the Sprintf dump,
and the remainder dispatches on getTypeCategory. -/
def generateDebugCodeByCategory (fieldType : TypeExpr) (fieldName : String)
    (useFormat : Bool) (resolver : ImportResolver) : DebugStmt :=
  let category := getTypeCategory fieldType
  let st := isStructTypeAST fieldType resolver
  if st.1 then
    if st.2 = "" then
      if useFormat then .structFlatMerge fieldName else .structDebugMap fieldName
    else .foreignSprintf fieldName
  else if category = typeCategoryPrimitive then
    if isStringType fieldType then .primString fieldName else .primDirect fieldName
  else if category = typeCategoryPointer then
    .pointerNilCheck fieldName
  else if category = typeCategorySlice then
    if useFormat then
      let elemIsString :=
        match getSliceElementType fieldType with
        | some elem => isStringType elem
        | none => false
      .sliceFormat fieldName elemIsString
    else .sliceSize fieldName
  else if category = typeCategoryMap then
    if useFormat then .mapFormat fieldName else .mapSize fieldName
  else
    .directAssign fieldName

/-- generateDebugCodeForSensitive from main.go: pointer category takes the
nil test, the builtin string type takes the empty test, everything else is
unconditionally the placeholder. -/
def generateDebugCodeForSensitive (fieldName : String) (fieldType : TypeExpr)
    (category : String) : DebugStmt :=
  if category = typeCategoryPointer then .sensitivePointer fieldName
  else if isStringType fieldType then .sensitiveString fieldName
  else .sensitiveAlways fieldName

/-- processDebugMapField from main.go: dispatch on the debugmap tag value;
a missing tag and an unknown value are fatal; hidden contributes nothing;
visible and visible-format pass the sensitivity gate first. -/
def processDebugMapField (field : Field) (fieldName : String) (c : Config)
    (sensitiveNameMatches : List String) (resolver : ImportResolver) :
    Except GenError (List DebugStmt) :=
  match parseStructTag field DebugMapFieldTag with
  | none => .error (.fatal (.missingDebugTag fieldName c.TargetTypeName))
  | some tagValue =>
    if tagValue = "visible" then
      match validateNotSensitive fieldName c.TargetTypeName sensitiveNameMatches with
      | .error e => .error e
      | .ok _ => .ok [generateDebugCodeByCategory field.type fieldName false resolver]
    else if tagValue = "visible-format" then
      match validateNotSensitive fieldName c.TargetTypeName sensitiveNameMatches with
      | .error e => .error e
      | .ok _ => .ok [generateDebugCodeByCategory field.type fieldName true resolver]
    else if tagValue = "hidden" then
      .ok []
    else if tagValue = "sensitive" then
      .ok [generateDebugCodeForSensitive fieldName field.type
        (getTypeCategory field.type)]
    else
      .error (.fatal (.unknownDebugValue tagValue fieldName c.TargetTypeName))

/-- The per-field loop body of writeDebugMapAST (main.go lines 550-564):
anonymous fields and unexported names are skipped before any tag check. -/
def debugStmtsForField (c : Config) (sensitiveNameMatches : List String)
    (resolver : ImportResolver) (field : Field) :
    Except GenError (List DebugStmt) :=
  match field.names with
  | [] => .ok []
  | names =>
    exFlatMap names (fun name =>
      if isExported name = false then .ok []
      else processDebugMapField field name c sensitiveNameMatches resolver)

/-- writeDebugMapAST over a whole struct: the debug statements emitted into
the DebugMap method body, in field order. -/
def writeDebugMapStmts (st : List Field) (c : Config)
    (sensitiveNameMatches : List String) (resolver : ImportResolver) :
    Except GenError (List DebugStmt) :=
  exFlatMap st (debugStmtsForField c sensitiveNameMatches resolver)

/-- Runtime Go values, as far as the emitted debug statements inspect them.
vPtr none is a nil pointer, vSlice none and vMap none are nil collections,
and vStruct carries the declared type name and the field valuation. -/
inductive GoValue where
  | vString (s : String)
  | vInt (n : Int)
  | vBool (b : Bool)
  | vPtr (p : Option GoValue)
  | vSlice (elems : Option (List GoValue))
  | vMap (entries : Option (List (GoValue × GoValue)))
  | vStruct (typeName : String) (fields : List (String × GoValue))

/-- Runtime meaning of one emitted debug statement applied to the runtime
value of its field: the list of key/value entries the statement stores into
the debug map (the sensitive, primitive, pointer and size statements store
exactly one; hidden fields never reach this point; structFlatMerge stores
one entry per nested flattened key).  none models a runtime panic or a state
the emitted statement cannot be executed on.  dmOracle and flatOracle give
the behavior of the nested type's generated DebugMap and FlatDebugMap
methods, which the emitted statement calls but whose code is generated
separately; an oracle returns none when that call panics. -/
def debugStmtEval (dmOracle flatOracle : GoValue → Option (List (String × GoValue))) :
    DebugStmt → GoValue → Option (List (String × GoValue))
  | .primString f, v =>
    match v with
    | .vString s => some [(f, if s = "" then .vString "(empty)" else .vString s)]
    | _ => none
  | .primDirect f, v => some [(f, v)]
  | .pointerNilCheck f, v =>
    match v with
    | .vPtr none => some [(f, .vString "nil")]
    | .vPtr (some x) => some [(f, x)]
    | _ => none
  | .sliceSize f, v =>
    match v with
    | .vSlice none => some [(f, .vString "nil")]
    | .vSlice (some es) =>
      some [(f, .vString ("(slice of size " ++ toString es.length ++ ")"))]
    | _ => none
  | .sliceFormat f elemIsString, v =>
    match v with
    | .vSlice none => some [(f, .vString "nil")]
    | .vSlice (some es) =>
      some [(f, .vSlice (some (es.map (fun e =>
        if elemIsString then
          match e with
          | .vString "" => GoValue.vString "(empty)"
          | other => other
        else e))))]
    | _ => none
  | .mapSize f, v =>
    match v with
    | .vMap none => some [(f, .vString "nil")]
    | .vMap (some es) =>
      some [(f, .vString ("(map of size " ++ toString es.length ++ ")"))]
    | _ => none
  | .mapFormat f, v =>
    match v with
    | .vMap none => some [(f, .vString "nil")]
    | .vMap (some _) => some [(f, v)]
    | _ => none
  | .structDebugMap f, v =>
    match dmOracle v with
    | some entries =>
      some [(f, .vMap (some (entries.map (fun p => (GoValue.vString p.1, p.2)))))]
    | none => none
  | .structFlatMerge f, v =>
    match flatOracle v with
    | some entries => some (entries.map (fun p => (f ++ "." ++ p.1, p.2)))
    | none => none
  | .foreignSprintf f, v => some [(f, v)]
  | .directAssign f, v => some [(f, v)]
  | .sensitivePointer f, v =>
    match v with
    | .vPtr none => some [(f, .vString "nil")]
    | _ => some [(f, .vString "(sensitive)")]
  | .sensitiveString f, v =>
    match v with
    | .vString s =>
      if s = "" then some [(f, .vString "(empty)")]
      else some [(f, .vString "(sensitive)")]
    | _ => some [(f, .vString "(sensitive)")]
  | .sensitiveAlways f, _ => some [(f, .vString "(sensitive)")]

end Optgen

namespace Helpers

open Optgen

/-- helpers.SensitiveDebugValue: the runtime sensitive-value summarizer.  The
argument is a Go interface value; none models the nil interface. -/
def SensitiveDebugValue : Option GoValue → GoValue
  | none => .vString "nil"
  | some (.vString s) =>
    if s = "" then .vString "(empty)" else .vString "(sensitive)"
  | some _ => .vString "(sensitive)"

/-- Values stored in a string-keyed debug map, as helpers.Flatten inspects
them: vmap is a value whose type assertion to map[string]any succeeds, leaf
is any other value, carried opaquely. -/
inductive DVal where
  | vmap (entries : List (String × DVal))
  | leaf (v : String)

/-- helpers.Flatten: recursively inline every map[string]any value under
dot-joined composite keys; non-map values pass through unchanged.  Go maps
are modelled as association lists in generation order. -/
def Flatten : List (String × DVal) → List (String × DVal)
  | [] => []
  | (key, DVal.vmap childMap) :: rest =>
    ((Flatten childMap).map (fun p => (key ++ "." ++ p.1, p.2))) ++ Flatten rest
  | (key, DVal.leaf v) :: rest => (key, DVal.leaf v) :: Flatten rest
decreasing_by
  all_goals simp_wf
  all_goals omega

/-- Whether a debug-map value is itself a string-keyed map. -/
def isMapVal : DVal → Bool
  | .vmap _ => true
  | .leaf _ => false

end Helpers

namespace Optgen

/-- Whether a generated declaration is the Options-suffixed recursive
setter. -/
def isRecursiveSetterDecl : Decl → Bool
  | .recursiveSetter _ _ _ _ => true
  | _ => false

/-- Whether a generated declaration is a flattened accessor. -/
def isFlatSetterDecl : Decl → Bool
  | .flatSetter _ _ _ _ => true
  | _ => false

/-- Modelled from the claim wording of C4: a case-insensitive containment
comparison lowers both the field name and the configured substring.  The
source (validateNotSensitive) lowers only the field name; this definition
exists to state the claim as written and compare it with the source. -/
def claimCaseInsensitiveContains (s sub : String) : Bool :=
  goContains (goToLower s) (goToLower sub)

/-- Whether one name of a nested field is eligible for a flattened setter:
named, exported, and interpreted action neither skip nor readonly.  The
error branch is unreachable at every use site (a failed tag parse aborts
the whole generation run first). -/
def flattenEligible (nf : Field) (nn : String) : Bool :=
  isExported nn &&
    (match parseOptgenTag nf with
     | .ok p => !(p.1.Action = OptgenSkip || p.1.Action = OptgenReadonly)
     | .error _ => false)

/-- Modelled from the claim wording of C5: the flattened setters for exactly
the eligible (exported, non-skip, non-readonly) fields directly nested one
aggregate level below the root field, and nothing deeper.  Compared against
writeFlattenedOptFuncs in the C5 theorem. -/
def specDirectFlattenSetters (file : GoFile) (c : Config) (parentFieldName : String)
    (fieldType : TypeExpr) (pfx : String) (makePublic : Bool) : List Decl :=
  if getStructTypeName fieldType = "" then []
  else
    match findStructDefInFile file (getStructTypeName fieldType) with
    | none => []
    | some nestedFields =>
      nestedFields.flatMap (fun nf =>
        nf.names.filterMap (fun nn =>
          if flattenEligible nf nn then
            some (.flatSetter
              (formatFunctionName "With" (toTitle pfx ++ toTitle nn)
                c.structPfx makePublic)
              (unexport nn) (toTitle parentFieldName) (toTitle nn))
          else none))

/-- Whether a field's interpreted action excludes it from the
snapshot-to-option copy.  The error branch is unreachable at every use site
(a failed tag parse aborts the whole generation run first). -/
def fieldSkipsSnapshot (field : Field) : Bool :=
  match parseOptgenTag field with
  | .ok p => p.1.Action = OptgenSkip
  | .error _ => true

/-- Field-access step of the DebugMap method the generator emits for the
concrete struct type Nested with the single field
Name string tagged debugmap visible: the primString statement applied to
the Name field of the receiver. -/
def nestedFieldsEval (fs : List (String × GoValue)) :
    Option (List (String × GoValue)) :=
  match fs.lookup "Name" with
  | some (.vString s) =>
    some [("Name", if s = "" then GoValue.vString "(empty)" else GoValue.vString s)]
  | _ => none

/-- Runtime behavior of the generated DebugMap method of the concrete struct
type Nested (single field Name string, debugmap visible), as called through
a pointer: Go permits invoking the pointer-receiver method on a nil pointer,
but the emitted body immediately reads the Name field off the receiver, so a
nil receiver panics (none). -/
def nestedDebugMapSem : GoValue → Option (List (String × GoValue))
  | .vPtr none => none
  | .vPtr (some (.vStruct _ fs)) => nestedFieldsEval fs
  | .vStruct _ fs => nestedFieldsEval fs
  | _ => none

/-- The OptgenTagTest struct from testdata/optgen_tags/input.go: one
generate field, one skip field, one readonly field, one untagged exported
field, and one skipped slice field. -/
def optgenTagsStruct : List Field :=
  [{ names := ["Name"], type := .ident "string",
     tags := [("optgen", "generate"), ("debugmap", "visible")] },
   { names := ["Internal"], type := .ident "int",
     tags := [("optgen", "skip"), ("debugmap", "hidden")] },
   { names := ["ID"], type := .ident "string",
     tags := [("optgen", "readonly"), ("debugmap", "visible")] },
   { names := ["Port"], type := .ident "int",
     tags := [("debugmap", "visible")] },
   { names := ["InternalData"], type := .arrayType false (.ident "uint8"),
     tags := [("optgen", "skip"), ("debugmap", "hidden")] }]

/-- A two-level nested file for exercising the flatten depth bound: Address
has a direct string field and a direct GeoPoint field, and GeoPoint itself
has a string field Lat nested two aggregate levels below the root. -/
def flattenTestFile : GoFile :=
  { structs :=
    [("Address",
      [{ names := ["Street"], type := .ident "string",
         tags := [("optgen", "generate"), ("debugmap", "visible")] },
       { names := ["Geo"], type := .ident "GeoPoint",
         tags := [("optgen", "generate"), ("debugmap", "visible")] }]),
     ("GeoPoint",
      [{ names := ["Lat"], type := .ident "string",
         tags := [("optgen", "generate"), ("debugmap", "visible")] }])] }

end Optgen

namespace Optgen

theorem exFlatMap_ok_nil {α β : Type} (xs : List α)
    (f : α → Except GenError (List β)) (h : ∀ x ∈ xs, f x = .ok []) :
    exFlatMap xs f = .ok [] := by
  induction xs with
  | nil => rfl
  | cons x rest ih =>
    have hx : f x = .ok [] := h x (List.mem_cons_self x rest)
    have hrest : exFlatMap rest f = .ok [] :=
      ih (fun y hy => h y (List.mem_cons_of_mem x hy))
    simp [exFlatMap, hx, hrest]

theorem exFlatMap_forall_mem {α β : Type} (P : β → Prop) :
    ∀ (xs : List α) (f : α → Except GenError (List β)) (ys : List β),
      exFlatMap xs f = .ok ys →
      (∀ x ∈ xs, ∀ zs, f x = .ok zs → ∀ z ∈ zs, P z) →
      ∀ y ∈ ys, P y := by
  intro xs
  induction xs with
  | nil =>
    intro f ys hys _ y hy
    simp only [exFlatMap] at hys
    cases hys
    simp at hy
  | cons x rest ih =>
    intro f ys hys hall y hy
    simp only [exFlatMap] at hys
    cases hfx : f x with
    | error e => rw [hfx] at hys; cases hys
    | ok zs =>
      rw [hfx] at hys
      cases hrest : exFlatMap rest f with
      | error e => rw [hrest] at hys; cases hys
      | ok ws =>
        rw [hrest] at hys
        cases hys
        rcases List.mem_append.mp hy with hz | hw
        · exact hall x (List.mem_cons_self x rest) zs hfx y hz
        · exact ih f ws hrest
            (fun a ha bs hbs b hb => hall a (List.mem_cons_of_mem x ha) bs hbs b hb)
            y hw

/-- C6: the generated-function naming is the deterministic composition of
verb, struct prefix and title-cased field name; without prefix mode an
exported field Name yields WithName, with prefix mode on struct S it yields
WithSName; a private resolved visibility lower-cases exactly the first
character of the full computed name and changes nothing else. -/
theorem C6_naming_policy :
    formatFunctionName "With" "Name" "" true = "WithName" ∧
    formatFunctionName "With" "Name" "S" true = "WithSName" ∧
    (∀ c : Config, c.UsePrefix = false → c.structPfx = "") ∧
    (∀ c : Config, c.UsePrefix = true → c.structPfx = c.StructName) ∧
    (∀ verb fieldName sp : String,
      formatFunctionName verb fieldName sp false =
        unexport (formatFunctionName verb fieldName sp true)) ∧
    (∀ s : String,
      (unexport s).toList =
        match s.toList with
        | [] => []
        | c :: cs => c.toLower :: cs) := by
  refine ⟨by decide, by decide, ?_, ?_, ?_, ?_⟩
  · intro c hc; simp [Config.structPfx, hc]
  · intro c hc; simp [Config.structPfx, hc]
  · intro verb fieldName sp; rfl
  · intro s
    unfold unexport
    cases h : s.toList with
    | nil => simp only [h]
    | cons c cs => simp [h]

end Optgen

namespace Optgen

/-- C8: a named field with no optgen directive defaults to action generate
(exported) or skip (unexported), with default visibility and no recursive,
flatten or prefix flags, and without a diagnostic. -/
theorem C8_no_tag_defaults (field : Field) (n0 : String) (rest : List String)
    (hnames : field.names = n0 :: rest)
    (htag : parseStructTag field OptgenFieldTag = none) :
    parseOptgenTag field =
      .ok ({ Action := if isExported n0 then OptgenGenerate else OptgenSkip,
             Visibility := "default", Recursive := false, Flatten := false,
             FlattenDepth := 0, FlattenPrefix := "" }, false) := by
  unfold parseOptgenTag
  rw [hnames]
  simp [htag]

/-- Witness for C8 at the concrete exported field Name with no optgen tag. -/
theorem C8_witness :
    parseOptgenTag { names := ["Name"], type := .ident "string", tags := [] } =
      .ok ({ Action := OptgenGenerate, Visibility := "default", Recursive := false,
             Flatten := false, FlattenDepth := 0, FlattenPrefix := "" }, false) := by
  have hexp : isExported "Name" = true := by decide
  have h := C8_no_tag_defaults
    { names := ["Name"], type := .ident "string", tags := [] } "Name" [] rfl rfl
  simpa [hexp] using h

theorem Flatten_no_map_helper :
    ∀ m : List (String × Helpers.DVal),
      (Helpers.Flatten m).all (fun p => !(Helpers.isMapVal p.2)) = true := by
  intro m
  induction m using Helpers.Flatten.induct with
  | case1 => simp [Helpers.Flatten]
  | case2 key childMap rest ihChild ihRest =>
    simp only [Helpers.Flatten, List.all_append, List.all_map, Bool.and_eq_true]
    refine ⟨?_, ihRest⟩
    simpa [Function.comp] using ihChild
  | case3 key v rest ihRest =>
    simp only [Helpers.Flatten, List.all_cons, Bool.and_eq_true]
    exact ⟨rfl, ihRest⟩

theorem Flatten_fixed_of_leaves :
    ∀ m : List (String × Helpers.DVal),
      m.all (fun p => !(Helpers.isMapVal p.2)) = true → Helpers.Flatten m = m := by
  intro m
  induction m with
  | nil => intro _; simp [Helpers.Flatten]
  | cons p rest ih =>
    intro h
    obtain ⟨k, v⟩ := p
    rw [List.all_cons, Bool.and_eq_true] at h
    obtain ⟨hv, hrest⟩ := h
    cases v with
    | vmap es => simp [Helpers.isMapVal] at hv
    | leaf s => simp [Helpers.Flatten, ih hrest]

/-- C9: the dot-path flattening helper returns a map none of whose values is
itself a string-keyed map, and it is idempotent: flattening the result again
returns the same map. -/
theorem C9_flatten_flat_idempotent :
    (∀ m : List (String × Helpers.DVal),
      (Helpers.Flatten m).all (fun p => !(Helpers.isMapVal p.2)) = true) ∧
    (∀ m : List (String × Helpers.DVal),
      Helpers.Flatten (Helpers.Flatten m) = Helpers.Flatten m) :=
  ⟨Flatten_no_map_helper,
   fun m => Flatten_fixed_of_leaves _ (Flatten_no_map_helper m)⟩

end Optgen

namespace Optgen

theorem sensitive_dispatch_star (fieldName : String) (inner : TypeExpr) :
    generateDebugCodeForSensitive fieldName (.star inner)
      (getTypeCategory (.star inner)) = .sensitivePointer fieldName := rfl

theorem sensitive_dispatch_string (fieldName : String) :
    generateDebugCodeForSensitive fieldName (.ident "string")
      (getTypeCategory (.ident "string")) = .sensitiveString fieldName := by
  simp [generateDebugCodeForSensitive, getTypeCategory, isStringType,
    typeCategoryPrimitive, typeCategoryPointer, primitiveIdentNames]

theorem sensitive_dispatch_other (fieldName : String) (t : TypeExpr)
    (hstar : ∀ inner, t ≠ .star inner) (hstr : t ≠ .ident "string") :
    generateDebugCodeForSensitive fieldName t (getTypeCategory t) =
      .sensitiveAlways fieldName := by
  cases t with
  | star inner => exact absurd rfl (hstar inner)
  | ident n =>
    have hn : n ≠ "string" := by
      intro h; exact hstr (by rw [h])
    simp [generateDebugCodeForSensitive, getTypeCategory, isStringType,
      typeCategoryPrimitive, typeCategoryPointer, hn]
    split <;> simp
  | arrayType sized elem =>
    simp [generateDebugCodeForSensitive, getTypeCategory, isStringType,
      typeCategoryPointer]
    split <;> simp [typeCategorySlice]
  | _ =>
    simp [generateDebugCodeForSensitive, getTypeCategory, isStringType,
      typeCategoryPointer, typeCategorySlice, typeCategoryMap]

end Optgen

namespace Optgen

theorem sensitiveEval_placeholder (fieldName : String) (t : TypeExpr)
    (dmO flatO : GoValue → Option (List (String × GoValue))) (v : GoValue)
    (h1 : ¬ ((∃ inner, t = TypeExpr.star inner) ∧ v = GoValue.vPtr none))
    (h2 : ¬ (t = TypeExpr.ident "string" ∧ v = GoValue.vString "")) :
    debugStmtEval dmO flatO
      (generateDebugCodeForSensitive fieldName t (getTypeCategory t)) v =
      some [(fieldName, GoValue.vString "(sensitive)")] := by
  by_cases hstar : ∃ inner, t = TypeExpr.star inner
  · obtain ⟨inner, rfl⟩ := hstar
    rw [sensitive_dispatch_star]
    have hv : v ≠ GoValue.vPtr none := fun hv => h1 ⟨⟨inner, rfl⟩, hv⟩
    cases v with
    | vPtr p =>
      cases p with
      | none => exact absurd rfl hv
      | some x => rfl
    | vString s => rfl
    | vInt n => rfl
    | vBool b => rfl
    | vSlice es => rfl
    | vMap es => rfl
    | vStruct tn fs => rfl
  · by_cases hstr : t = TypeExpr.ident "string"
    · subst hstr
      rw [sensitive_dispatch_string]
      have hv : v ≠ GoValue.vString "" := fun hv => h2 ⟨rfl, hv⟩
      cases v with
      | vString s =>
        have hs : s ≠ "" := fun hs => hv (by rw [hs])
        simp only [debugStmtEval]
        rw [if_neg hs]
      | vInt n => rfl
      | vBool b => rfl
      | vPtr p => rfl
      | vSlice es => rfl
      | vMap es => rfl
      | vStruct tn fs => rfl
    · rw [sensitive_dispatch_other fieldName t (fun inner h => hstar ⟨inner, h⟩) hstr]
      rfl

/-- C1: for a Sensitive field the generated debug-map entry never exposes the
runtime value: a nil pointer field renders the string nil, an empty string on
a field of builtin string type renders the empty placeholder, and every
other case renders the fixed sensitive placeholder; consequently any two
non-nil, non-empty values of the field produce identical entries.  The
runtime helper SensitiveDebugValue obeys the same three-way contract. -/
theorem C1_sensitive_redaction (t : TypeExpr) (v : GoValue) (fieldName : String)
    (dmO flatO : GoValue → Option (List (String × GoValue))) :
    ((∃ inner, t = TypeExpr.star inner) → v = GoValue.vPtr none →
      debugStmtEval dmO flatO
        (generateDebugCodeForSensitive fieldName t (getTypeCategory t)) v =
        some [(fieldName, GoValue.vString "nil")]) ∧
    (t = TypeExpr.ident "string" → v = GoValue.vString "" →
      debugStmtEval dmO flatO
        (generateDebugCodeForSensitive fieldName t (getTypeCategory t)) v =
        some [(fieldName, GoValue.vString "(empty)")]) ∧
    (¬ ((∃ inner, t = TypeExpr.star inner) ∧ v = GoValue.vPtr none) →
      ¬ (t = TypeExpr.ident "string" ∧ v = GoValue.vString "") →
      debugStmtEval dmO flatO
        (generateDebugCodeForSensitive fieldName t (getTypeCategory t)) v =
        some [(fieldName, GoValue.vString "(sensitive)")]) ∧
    (∀ v' : GoValue, v ≠ GoValue.vPtr none → v' ≠ GoValue.vPtr none →
      v ≠ GoValue.vString "" → v' ≠ GoValue.vString "" →
      debugStmtEval dmO flatO
        (generateDebugCodeForSensitive fieldName t (getTypeCategory t)) v =
      debugStmtEval dmO flatO
        (generateDebugCodeForSensitive fieldName t (getTypeCategory t)) v') ∧
    Helpers.SensitiveDebugValue none = GoValue.vString "nil" ∧
    Helpers.SensitiveDebugValue (some (GoValue.vString "")) = GoValue.vString "(empty)" ∧
    (∀ w : GoValue, w ≠ GoValue.vString "" →
      Helpers.SensitiveDebugValue (some w) = GoValue.vString "(sensitive)") := by
  refine ⟨?_, ?_, ?_, ?_, rfl, by simp [Helpers.SensitiveDebugValue], ?_⟩
  · rintro ⟨inner, rfl⟩ rfl
    rw [sensitive_dispatch_star]
    rfl
  · rintro rfl rfl
    rw [sensitive_dispatch_string]
    rfl
  · exact sensitiveEval_placeholder fieldName t dmO flatO v
  · intro v' hv1 hv2 hv3 hv4
    rw [sensitiveEval_placeholder fieldName t dmO flatO v
        (fun h => hv1 h.2) (fun h => hv3 h.2),
      sensitiveEval_placeholder fieldName t dmO flatO v'
        (fun h => hv2 h.2) (fun h => hv4 h.2)]
  · intro w hw
    cases w with
    | vString s =>
      have hs : s ≠ "" := fun hs => hw (by rw [hs])
      simp only [Helpers.SensitiveDebugValue]
      rw [if_neg hs]
    | vInt n => rfl
    | vBool b => rfl
    | vPtr p => rfl
    | vSlice es => rfl
    | vMap es => rfl
    | vStruct tn fs => rfl

/-- Witness for C1: a sensitive pointer field of type star int renders nil
when the runtime value is the nil pointer. -/
theorem C1_witness :
    debugStmtEval (fun _ => none) (fun _ => none)
      (generateDebugCodeForSensitive "Token" (TypeExpr.star (TypeExpr.ident "int"))
        (getTypeCategory (TypeExpr.star (TypeExpr.ident "int"))))
      (GoValue.vPtr none) =
      some [("Token", GoValue.vString "nil")] :=
  (C1_sensitive_redaction (TypeExpr.star (TypeExpr.ident "int")) (GoValue.vPtr none)
    "Token" (fun _ => none) (fun _ => none)).1 ⟨TypeExpr.ident "int", rfl⟩ rfl

end Optgen

namespace Optgen

/-- C4 (counterexample): the claim states the comparison is case-insensitive,
but validateNotSensitive lowers only the field name and not the configured
substring: with substring Secure and field SecurePassword the
case-insensitive containment holds, yet generation does not abort. -/
theorem C4_counterexample :
    ¬ ((∃ e, validateNotSensitive "SecurePassword" "Creds" ["Secure"] = .error e) ↔
        claimCaseInsensitiveContains "SecurePassword" "Secure" = true) := by
  intro h
  have hci : claimCaseInsensitiveContains "SecurePassword" "Secure" = true := by decide
  obtain ⟨e, he⟩ := h.mpr hci
  have hok : validateNotSensitive "SecurePassword" "Creds" ["Secure"] = .ok () := by
    decide
  rw [hok] at he
  cases he

/-- C4 (amended): for a field whose debug directive is visible or
visible-format, generation aborts with the fatal diagnostic naming the field
and the struct if and only if the lower-cased field name literally contains
one of the configured substrings (so the comparison is case-insensitive in
the field name only; a substring containing an upper-case letter never
matches). -/
theorem C4_sensitive_gate_amended (field : Field) (fieldName : String) (c : Config)
    (sens : List String) (resolver : ImportResolver) (mode : String)
    (hmode : mode = "visible" ∨ mode = "visible-format")
    (htag : parseStructTag field DebugMapFieldTag = some mode) :
    (processDebugMapField field fieldName c sens resolver =
        .error (.fatal (.mustBeSensitive fieldName c.TargetTypeName))) ↔
      ∃ s ∈ sens, goContains (goToLower fieldName) s = true := by
  unfold processDebugMapField validateNotSensitive
  rw [htag]
  dsimp only
  rcases hmode with rfl | rfl
  · rw [if_pos rfl]
    cases hf : List.find? (fun s => goContains (goToLower fieldName) s) sens with
    | none =>
      simp only [hf]
      constructor
      · intro h; cases h
      · rintro ⟨s, hs, hgc⟩
        have hnone := List.find?_eq_none.mp hf s hs
        simp [hgc] at hnone
    | some s0 =>
      simp only [hf]
      constructor
      · intro _
        exact ⟨s0, List.mem_of_find?_eq_some hf, List.find?_some hf⟩
      · intro _; trivial
  · rw [if_neg (by decide), if_pos rfl]
    cases hf : List.find? (fun s => goContains (goToLower fieldName) s) sens with
    | none =>
      simp only [hf]
      constructor
      · intro h; cases h
      · rintro ⟨s, hs, hgc⟩
        have hnone := List.find?_eq_none.mp hf s hs
        simp [hgc] at hnone
    | some s0 =>
      simp only [hf]
      constructor
      · intro _
        exact ⟨s0, List.mem_of_find?_eq_some hf, List.find?_some hf⟩
      · intro _; trivial

/-- Witness for C4 (amended), which is also Scenario E of the spec: field
securePassword with directive visible and configured substring secure aborts
generation with the field-must-be-sensitive diagnostic naming the field and
the struct. -/
theorem C4_witness :
    processDebugMapField
      { names := ["securePassword"], type := .ident "string",
        tags := [("debugmap", "visible")] } "securePassword"
      { ReceiverId := "c", OptTypeName := "CredsOption", TargetTypeName := "Creds",
        StructName := "Creds", UsePrefix := false, UseFlatten := false }
      ["secure"] { pkgToPath := [] } =
      .error (.fatal (.mustBeSensitive "securePassword" "Creds")) := by
  have h := C4_sensitive_gate_amended
    { names := ["securePassword"], type := .ident "string",
      tags := [("debugmap", "visible")] } "securePassword"
    { ReceiverId := "c", OptTypeName := "CredsOption", TargetTypeName := "Creds",
      StructName := "Creds", UsePrefix := false, UseFlatten := false }
    ["secure"] { pkgToPath := [] } "visible" (Or.inl rfl) rfl
  exact h.mpr ⟨"secure", by simp, by decide⟩

end Optgen

namespace Optgen

/-- C7 (counterexample): for a field of type pointer-to-local-aggregate the
claim promises the entry nil on a nil pointer, but the generator routes the
field through the aggregate handling: the emitted statement is the nested
DebugMap call, and on a nil pointer that call dereferences its receiver and
panics instead of storing nil (nestedDebugMapSem is the behavior of the
DebugMap generated for the concrete pointee struct Nested with one visible
string field Name). -/
theorem C7_counterexample :
    generateDebugCodeByCategory (.star (.ident "Nested")) "Meta" false
      { pkgToPath := [] } = .structDebugMap "Meta" ∧
    debugStmtEval nestedDebugMapSem (fun _ => none)
      (generateDebugCodeByCategory (.star (.ident "Nested")) "Meta" false
        { pkgToPath := [] })
      (GoValue.vPtr none) = none ∧
    debugStmtEval nestedDebugMapSem (fun _ => none)
      (generateDebugCodeByCategory (.star (.ident "Nested")) "Meta" false
        { pkgToPath := [] })
      (GoValue.vPtr none) ≠ some [("Meta", GoValue.vString "nil")] := by
  refine ⟨rfl, rfl, ?_⟩
  intro h
  rw [show debugStmtEval nestedDebugMapSem (fun _ => none)
      (generateDebugCodeByCategory (.star (.ident "Nested")) "Meta" false
        { pkgToPath := [] })
      (GoValue.vPtr none) = none from rfl] at h
  cases h

/-- C7 (amended): for a field of single-level pointer type whose pointee is
not classified as a struct candidate, the generated debug statement under
visible or visible-format is the nil-check-then-dereference statement, whose
entry is the string nil on a nil pointer and the dereferenced value
otherwise; when the pointee is a local aggregate the field is instead routed
through the nested DebugMap call, whose entry on a nil pointer is never the
string nil (the call returns a map or panics). -/
theorem C7_pointer_debug_amended (inner : TypeExpr) (resolver : ImportResolver)
    (fieldName : String) (useFormat : Bool)
    (dmO flatO : GoValue → Option (List (String × GoValue)))
    (hnonstruct : (isStructTypeAST (.star inner) resolver).1 = false) :
    generateDebugCodeByCategory (.star inner) fieldName useFormat resolver =
      .pointerNilCheck fieldName ∧
    debugStmtEval dmO flatO (.pointerNilCheck fieldName) (GoValue.vPtr none) =
      some [(fieldName, GoValue.vString "nil")] ∧
    (∀ x : GoValue, debugStmtEval dmO flatO (.pointerNilCheck fieldName)
      (GoValue.vPtr (some x)) = some [(fieldName, x)]) ∧
    (∀ t : TypeExpr, isStructTypeAST t resolver = (true, "") →
      debugStmtEval dmO flatO
        (generateDebugCodeByCategory t fieldName false resolver)
        (GoValue.vPtr none) ≠ some [(fieldName, GoValue.vString "nil")]) := by
  refine ⟨?_, rfl, fun x => rfl, ?_⟩
  · simp [generateDebugCodeByCategory, getTypeCategory, hnonstruct,
      typeCategoryPrimitive, typeCategoryPointer]
  · intro t ht
    have hstmt : generateDebugCodeByCategory t fieldName false resolver =
        .structDebugMap fieldName := by
      simp [generateDebugCodeByCategory, ht]
    rw [hstmt]
    cases hdm : dmO (GoValue.vPtr none) with
    | none => simp [debugStmtEval, hdm]
    | some entries => simp [debugStmtEval, hdm]

/-- Witness for C7 (amended) at a pointer-to-int field holding a non-nil
pointer: the entry is the dereferenced value. -/
theorem C7_witness :
    debugStmtEval (fun _ => none) (fun _ => none)
      (generateDebugCodeByCategory (.star (.ident "int")) "Timeout" false
        { pkgToPath := [] }) (GoValue.vPtr (some (GoValue.vInt 5))) =
      some [("Timeout", GoValue.vInt 5)] := by
  have h := C7_pointer_debug_amended (.ident "int") { pkgToPath := [] } "Timeout"
    false (fun _ => none) (fun _ => none) (by decide)
  rw [h.1]
  exact h.2.2.1 (GoValue.vInt 5)

end Optgen

namespace Optgen

theorem flat_not_recursive (d : Decl) (h : isFlatSetterDecl d = true) :
    isRecursiveSetterDecl d = false := by
  cases d <;> simp_all [isFlatSetterDecl, isRecursiveSetterDecl]

theorem writeFlattened_only_flat :
    ∀ (fuel : Nat) (file : GoFile) (c : Config) (resolver : ImportResolver)
      (parent : String) (t : TypeExpr) (pfx : String) (cur maxD : Int) (mp : Bool)
      (ds : List Decl),
      writeFlattenedOptFuncs fuel file c resolver parent t pfx cur maxD mp = .ok ds →
      ∀ d ∈ ds, isFlatSetterDecl d = true := by
  intro fuel
  induction fuel with
  | zero =>
    intro file c resolver parent t pfx cur maxD mp ds h
    simp [writeFlattenedOptFuncs] at h
  | succ fuel ih =>
    intro file c resolver parent t pfx cur maxD mp ds h
    rw [writeFlattenedOptFuncs] at h
    by_cases hguard : maxD > 0 ∧ cur > maxD
    · rw [if_pos hguard] at h
      cases h
      simp
    · rw [if_neg hguard] at h
      by_cases hname : getStructTypeName t = ""
      · rw [if_pos hname] at h
        cases h
        simp
      · rw [if_neg hname] at h
        cases hfind : findStructDefInFile file (getStructTypeName t) with
        | none =>
          rw [hfind] at h
          cases h
          simp
        | some nestedFields =>
          rw [hfind] at h
          refine exFlatMap_forall_mem (fun d => isFlatSetterDecl d = true)
            nestedFields _ ds h ?_
          intro nf _ zs hzs z hz
          refine exFlatMap_forall_mem (fun d => isFlatSetterDecl d = true)
            nf.names _ zs hzs ?_ z hz
          intro nn _ ws hws w hw
          by_cases hexp : isExported nn = false
          · rw [if_pos hexp] at hws
            cases hws
            cases hw
          · rw [if_neg hexp] at hws
            cases hparse : parseOptgenTag nf with
            | error e =>
              rw [hparse] at hws
              cases hws
            | ok parsed =>
              rw [hparse] at hws
              dsimp only at hws
              by_cases hskip : parsed.1.Action = OptgenSkip ∨
                  parsed.1.Action = OptgenReadonly
              · rw [if_pos hskip] at hws
                cases hws
                cases hw
              · rw [if_neg hskip] at hws
                by_cases hst : (isStructTypeAST nf.type resolver).1 = true ∧
                    (isStructTypeAST nf.type resolver).2 = ""
                · rw [if_pos hst] at hws
                  cases hrec : writeFlattenedOptFuncs fuel file c resolver
                      (parent ++ "." ++ nn) nf.type
                      (toTitle pfx ++ toTitle nn) (cur + 1) maxD mp with
                  | error e =>
                    rw [hrec] at hws
                    cases hws
                  | ok recDecls =>
                    rw [hrec] at hws
                    cases hws
                    rcases List.mem_cons.mp hw with rfl | hmem
                    · rfl
                    · exact ih file c resolver (parent ++ "." ++ nn) nf.type
                        (toTitle pfx ++ toTitle nn) (cur + 1) maxD mp recDecls
                        hrec w hmem
                · rw [if_neg hst] at hws
                  cases hws
                  rcases List.mem_cons.mp hw with rfl | hmem
                  · rfl
                  · cases hmem

end Optgen

namespace Optgen

/-- C2 (counterexample): the claim states the recursive setter forwards the
options to the nested type's defaulted constructor, but the emitted body
calls NewServerMetadataWithOptions — the build-from-scratch constructor —
which is a different function from the defaults-then-options constructor
NewServerMetadataWithOptionsAndDefaults. -/
theorem C2_counterexample :
    writeStructRecursiveSetter "Metadata" (.ident "ServerMetadata")
      { ReceiverId := "c", OptTypeName := "ConfigOption", TargetTypeName := "Config",
        StructName := "Config", UsePrefix := false, UseFlatten := false } true =
      [.recursiveSetter "WithMetadataOptions" "ServerMetadataOption"
        (newXWithOptionsName "ServerMetadata") "Metadata"] ∧
    newXWithOptionsName "ServerMetadata" ≠
      newXWithOptionsAndDefaultsName "ServerMetadata" := by
  constructor
  · decide
  · decide

/-- C2 (amended): for a local-aggregate field carrying the recursive
directive (and whose type expression yields a type name), the per-field
output contains exactly one Options-suffixed setter; it takes the nested
type's variadic option functions (type name plus the Option suffix) and its
body assigns the dereferenced result of the nested type's build-from-scratch
constructor NewTWithOptions — not the defaulted constructor — to the field;
the setter performs no further recursion (its body only forwards the
received options once). -/
theorem C2_recursive_setter_amended (file : GoFile) (resolver : ImportResolver)
    (c : Config) (fuel : Nat) (field : Field) (fieldName : String)
    (info : OptgenTagInfo) (b : Bool) (ds : List Decl)
    (hparse : parseOptgenTag field = .ok (info, b))
    (hact : ¬ (info.Action = OptgenSkip ∨ info.Action = OptgenReadonly))
    (hstruct : isStructTypeAST field.type resolver = (true, ""))
    (hrec : info.Recursive = true)
    (hname : getStructTypeName field.type ≠ "")
    (hok : optFuncsForFieldName file resolver c fuel field fieldName = .ok ds) :
    ds.filter isRecursiveSetterDecl =
      [Decl.recursiveSetter
        (formatFunctionName "With" (fieldName ++ "Options") c.structPfx
          (resolveMakePublic info.Visibility (isExported fieldName)))
        (getStructTypeName field.type ++ "Option")
        (newXWithOptionsName (getStructTypeName field.type))
        (toTitle fieldName)] := by
  unfold optFuncsForFieldName at hok
  rw [hparse] at hok
  dsimp only at hok
  rw [if_neg hact] at hok
  rw [if_pos (by rw [hstruct]; exact ⟨rfl, rfl⟩)] at hok
  rw [if_pos hrec] at hok
  unfold writeStructRecursiveSetter at hok
  rw [if_neg hname] at hok
  by_cases hflat : info.Flatten = true ∨ c.UseFlatten = true
  · rw [if_pos hflat] at hok
    cases hfl : writeFlattenedOptFuncs fuel file c resolver fieldName field.type
        (if info.FlattenPrefix = "" then fieldName else info.FlattenPrefix) 1
        info.FlattenDepth
        (resolveMakePublic info.Visibility (isExported fieldName)) with
    | error e => rw [hfl] at hok; cases hok
    | ok flatDecls =>
      rw [hfl] at hok
      cases hok
      have honly := writeFlattened_only_flat fuel file c resolver fieldName
        field.type
        (if info.FlattenPrefix = "" then fieldName else info.FlattenPrefix) 1
        info.FlattenDepth
        (resolveMakePublic info.Visibility (isExported fieldName)) flatDecls hfl
      rw [List.filter_append, List.filter_append]
      have hflatnil : flatDecls.filter isRecursiveSetterDecl = [] := by
        rw [List.filter_eq_nil_iff]
        intro d hd
        simp [flat_not_recursive d (honly d hd)]
      rw [hflatnil]
      simp [writeSetterOpt, isRecursiveSetterDecl, newXWithOptionsName]
  · rw [if_neg hflat] at hok
    cases hok
    rw [List.filter_append, List.filter_append]
    simp [writeSetterOpt, isRecursiveSetterDecl, newXWithOptionsName]

/-- Witness for C2 (amended) at the concrete testdata field
Metadata ServerMetadata with tag generate,recursive. -/
theorem C2_witness :
    ((optFuncsForFieldName { structs := [] } { pkgToPath := [] }
        { ReceiverId := "c", OptTypeName := "ConfigOption",
          TargetTypeName := "Config", StructName := "Config",
          UsePrefix := false, UseFlatten := false } 1
        { names := ["Metadata"], type := .ident "ServerMetadata",
          tags := [("optgen", "generate,recursive")] } "Metadata").map
      (fun ds => ds.filter isRecursiveSetterDecl)) =
      .ok [Decl.recursiveSetter "WithMetadataOptions" "ServerMetadataOption"
        (newXWithOptionsName "ServerMetadata") "Metadata"] := by
  have hconc : optFuncsForFieldName { structs := [] } { pkgToPath := [] }
      { ReceiverId := "c", OptTypeName := "ConfigOption",
        TargetTypeName := "Config", StructName := "Config",
        UsePrefix := false, UseFlatten := false } 1
      { names := ["Metadata"], type := .ident "ServerMetadata",
        tags := [("optgen", "generate,recursive")] } "Metadata" =
      .ok [Decl.setter "WithMetadata" "metadata" "Metadata",
        Decl.recursiveSetter "WithMetadataOptions" "ServerMetadataOption"
          "NewServerMetadataWithOptions" "Metadata"] := by decide
  have h := C2_recursive_setter_amended { structs := [] } { pkgToPath := [] }
    { ReceiverId := "c", OptTypeName := "ConfigOption",
      TargetTypeName := "Config", StructName := "Config",
      UsePrefix := false, UseFlatten := false } 1
    { names := ["Metadata"], type := .ident "ServerMetadata",
      tags := [("optgen", "generate,recursive")] } "Metadata"
    { Action := "generate", Visibility := "default", Recursive := true,
      Flatten := false, FlattenDepth := 0, FlattenPrefix := "" } true
    [Decl.setter "WithMetadata" "metadata" "Metadata",
      Decl.recursiveSetter "WithMetadataOptions" "ServerMetadataOption"
        "NewServerMetadataWithOptions" "Metadata"]
    (by decide) (by decide) (by decide) rfl (by decide) hconc
  rw [hconc]
  simp only [Except.map]
  rw [h]
  decide

end Optgen

namespace Optgen

/-- C10: an anonymous (embedded, nameless) field is silently excluded from
all output without any diagnostic: tag interpretation classifies it as skip,
the per-field mutator generation yields nothing, it contributes no debug
statement (hence no entry in the nested debug map, and none in the flattened
variant, which the generated FlatDebugMap derives from the nested one), and
the snapshot-to-option assigns nothing for it. -/
theorem C10_anonymous_excluded (field : Field) (h : field.names = []) :
    parseOptgenTag field =
      .ok ({ Action := OptgenSkip, Visibility := "default", Recursive := false,
             Flatten := false, FlattenDepth := 0, FlattenPrefix := "" }, false) ∧
    (∀ (file : GoFile) (resolver : ImportResolver) (c : Config) (fuel : Nat),
      optFuncsForField file resolver c fuel field = .ok []) ∧
    (∀ (c : Config) (sens : List String) (resolver : ImportResolver),
      debugStmtsForField c sens resolver field = .ok []) ∧
    toOptionAssignsForField field = .ok [] := by
  refine ⟨?_, ?_, ?_, ?_⟩
  · unfold parseOptgenTag
    rw [h]
  · intro file resolver c fuel
    unfold optFuncsForField
    rw [h]
  · intro c sens resolver
    unfold debugStmtsForField
    rw [h]
  · unfold toOptionAssignsForField
    rw [h]
    rfl

/-- Witness for C10 at a concrete anonymous field. -/
theorem C10_witness :
    parseOptgenTag { names := [], type := .ident "Base", tags := [] } =
      .ok ({ Action := OptgenSkip, Visibility := "default", Recursive := false,
             Flatten := false, FlattenDepth := 0, FlattenPrefix := "" }, false) ∧
    optFuncsForField { structs := [] } { pkgToPath := [] }
      { ReceiverId := "c", OptTypeName := "ConfigOption",
        TargetTypeName := "Config", StructName := "Config",
        UsePrefix := false, UseFlatten := false } 1
      { names := [], type := .ident "Base", tags := [] } = .ok [] ∧
    debugStmtsForField
      { ReceiverId := "c", OptTypeName := "ConfigOption",
        TargetTypeName := "Config", StructName := "Config",
        UsePrefix := false, UseFlatten := false } ["secure"] { pkgToPath := [] }
      { names := [], type := .ident "Base", tags := [] } = .ok [] ∧
    toOptionAssignsForField { names := [], type := .ident "Base", tags := [] } =
      .ok [] := by
  have h := C10_anonymous_excluded
    { names := [], type := .ident "Base", tags := [] } rfl
  exact ⟨h.1, h.2.1 { structs := [] } { pkgToPath := [] } _ 1,
    h.2.2.1 _ ["secure"] { pkgToPath := [] }, h.2.2.2⟩

end Optgen

namespace Optgen

theorem exFlatMap_filter_exported (f : String → Except GenError (List String))
    (hf1 : ∀ n, isExported n = true → f n = .ok [n])
    (hf2 : ∀ n, isExported n = false → f n = .ok []) :
    ∀ names : List String,
      exFlatMap names f = .ok (names.filter (fun n => isExported n)) := by
  intro names
  induction names with
  | nil => rfl
  | cons n rest ih =>
    rw [exFlatMap, ih]
    by_cases hexp : isExported n = true
    · rw [hf1 n hexp]
      simp [List.filter_cons, hexp]
    · rw [hf2 n (by simpa using hexp)]
      simp [List.filter_cons, hexp]

theorem toOption_eligible_names (field : Field) (info : OptgenTagInfo) (b : Bool)
    (hparse : parseOptgenTag field = .ok (info, b))
    (hns : info.Action ≠ OptgenSkip) :
    toOptionAssignsForField field =
      .ok (field.names.filter (fun n => isExported n)) := by
  unfold toOptionAssignsForField
  apply exFlatMap_filter_exported
  · intro n hexp
    rw [if_pos hexp, hparse]
    dsimp only
    rw [if_neg hns]
  · intro n hexp
    rw [if_neg (by simp [hexp])]

theorem toOption_field_filter (field : Field) (lf : List String)
    (h : toOptionAssignsForField field = .ok lf) :
    lf = field.names.filter
      (fun n => isExported n && !(fieldSkipsSnapshot field)) := by
  unfold toOptionAssignsForField at h
  cases hp : parseOptgenTag field with
  | error e =>
    have hnoexp : ∀ names lf', exFlatMap names (fun name =>
        if isExported name then
          match parseOptgenTag field with
          | .error e => .error e
          | .ok parsed =>
            if parsed.1.Action = OptgenSkip then .ok []
            else .ok [name]
        else .ok []) = .ok lf' →
        lf' = [] ∧ ∀ n ∈ names, isExported n = false := by
      intro names
      induction names with
      | nil =>
        intro lf' h'
        cases h'
        exact ⟨rfl, by simp⟩
      | cons n rest ih =>
        intro lf' h'
        rw [exFlatMap] at h'
        by_cases hexp : isExported n = true
        · rw [if_pos hexp, hp] at h'
          cases h'
        · rw [if_neg hexp] at h'
          cases hrest : exFlatMap rest (fun name =>
              if isExported name then
                match parseOptgenTag field with
                | .error e => .error e
                | .ok parsed =>
                  if parsed.1.Action = OptgenSkip then .ok []
                  else .ok [name]
              else .ok []) with
          | error e => rw [hrest] at h'; cases h'
          | ok lrest =>
            rw [hrest] at h'
            cases h'
            obtain ⟨hnil, hall⟩ := ih lrest hrest
            refine ⟨by simp [hnil], ?_⟩
            intro m hm
            rcases List.mem_cons.mp hm with rfl | hmem
            · simpa using hexp
            · exact hall m hmem
    obtain ⟨hnil, hall⟩ := hnoexp field.names lf h
    subst hnil
    symm
    rw [List.filter_eq_nil_iff]
    intro n hn
    simp [hall n hn]
  | ok parsed =>
    obtain ⟨info, b⟩ := parsed
    by_cases hskip : info.Action = OptgenSkip
    · have hs : fieldSkipsSnapshot field = true := by
        unfold fieldSkipsSnapshot
        rw [hp]
        simpa using hskip
      have hz : exFlatMap field.names (fun name =>
          if isExported name then
            match parseOptgenTag field with
            | .error e => .error e
            | .ok parsed =>
              if parsed.1.Action = OptgenSkip then .ok []
              else .ok [name]
          else .ok []) = .ok [] := by
        apply exFlatMap_ok_nil
        intro n _
        by_cases hexp : isExported n = true
        · rw [if_pos hexp, hp]
          dsimp only
          rw [if_pos (by simpa using hskip)]
        · rw [if_neg hexp]
      rw [hz] at h
      cases h
      symm
      rw [List.filter_eq_nil_iff]
      intro n hn
      simp [hs]
    · have hs : fieldSkipsSnapshot field = false := by
        unfold fieldSkipsSnapshot
        rw [hp]
        simpa using hskip
      have he := toOption_eligible_names field info b hp hskip
      unfold toOptionAssignsForField at he
      rw [he] at h
      cases h
      rw [hs]
      simp

/-- C3: a skip field gets no per-field mutator and is excluded from the
snapshot-to-option; a readonly field is included in the snapshot-to-option
exactly for its exported names but gets no mutator; the snapshot-to-option
copies exactly the exported, non-skip names of the struct in declaration
order; and running the emitted assignment sequence maps a target valuation
to one that takes the source value on the copied names and is untouched
elsewhere. -/
theorem C3_skip_readonly_snapshot :
    (∀ (field : Field) (info : OptgenTagInfo) (b : Bool),
      parseOptgenTag field = .ok (info, b) → info.Action = OptgenSkip →
      toOptionAssignsForField field = .ok [] ∧
      ∀ (file : GoFile) (resolver : ImportResolver) (c : Config) (fuel : Nat),
        optFuncsForField file resolver c fuel field = .ok []) ∧
    (∀ (field : Field) (info : OptgenTagInfo) (b : Bool),
      parseOptgenTag field = .ok (info, b) → info.Action = OptgenReadonly →
      toOptionAssignsForField field =
        .ok (field.names.filter (fun n => isExported n)) ∧
      ∀ (file : GoFile) (resolver : ImportResolver) (c : Config) (fuel : Nat),
        optFuncsForField file resolver c fuel field = .ok []) ∧
    (∀ (st : List Field) (l : List String),
      writeToOptionAssigns st = .ok l →
      l = st.flatMap (fun f =>
        f.names.filter (fun n => isExported n && !(fieldSkipsSnapshot f)))) ∧
    (∀ (l : List String) (src tgt : String → GoValue) (n : String),
      applyToOptionAssigns l src tgt n =
        if l.contains n then src n else tgt n) := by
  have hmut : ∀ (field : Field) (info : OptgenTagInfo) (b : Bool),
      parseOptgenTag field = .ok (info, b) →
      (info.Action = OptgenSkip ∨ info.Action = OptgenReadonly) →
      ∀ (file : GoFile) (resolver : ImportResolver) (c : Config) (fuel : Nat),
        optFuncsForField file resolver c fuel field = .ok [] := by
    intro field info b hparse hact file resolver c fuel
    unfold optFuncsForField
    cases hn : field.names with
    | nil => rfl
    | cons n0 rest =>
      apply exFlatMap_ok_nil
      intro n _
      unfold optFuncsForFieldName
      rw [hparse]
      dsimp only
      rw [if_pos hact]
  refine ⟨?_, ?_, ?_, ?_⟩
  · intro field info b hparse hskip
    refine ⟨?_, hmut field info b hparse (Or.inl hskip)⟩
    unfold toOptionAssignsForField
    apply exFlatMap_ok_nil
    intro n _
    by_cases hexp : isExported n = true
    · rw [if_pos hexp, hparse]
      dsimp only
      rw [if_pos hskip]
    · rw [if_neg hexp]
  · intro field info b hparse hro
    have hns : info.Action ≠ OptgenSkip := by
      rw [hro]
      decide
    exact ⟨toOption_eligible_names field info b hparse hns,
      hmut field info b hparse (Or.inr hro)⟩
  · intro st
    induction st with
    | nil =>
      intro l h
      cases h
      rfl
    | cons f rest ih =>
      intro l h
      unfold writeToOptionAssigns at h ih
      rw [exFlatMap] at h
      cases hf : toOptionAssignsForField f with
      | error e => rw [hf] at h; cases h
      | ok lf =>
        rw [hf] at h
        cases hrest : exFlatMap rest toOptionAssignsForField with
        | error e => rw [hrest] at h; cases h
        | ok lrest =>
          rw [hrest] at h
          cases h
          rw [List.flatMap_cons, toOption_field_filter f lf hf, ih lrest hrest]
  · intro l src tgt n
    have hgen : ∀ (l : List String) (acc : String → GoValue),
        List.foldl (fun acc m => fun k => if k = m then src m else acc k) acc l n =
          if l.contains n then src n else acc n := by
      intro l
      induction l with
      | nil => intro acc; simp
      | cons m rest ih =>
        intro acc
        rw [List.foldl_cons, ih]
        cases hr : rest.contains n with
        | true =>
          have hmem : n ∈ rest := by simpa using hr
          simp [List.contains_cons, hr, hmem]
        | false =>
          simp only [List.contains_cons, hr, Bool.or_false]
          by_cases hnm : n = m
          · subst hnm
            simp
          · have hbeq : (m == n) = false := by
              rw [beq_eq_false_iff_ne]
              intro hc
              exact hnm hc.symm
            simp [hbeq, hnm]
    exact hgen l tgt

/-- Witness for C3 on the concrete OptgenTagTest struct: the
snapshot-to-option copies exactly Name, ID and Port (generate, readonly and
untagged exported), skipping the two skip fields. -/
theorem C3_witness :
    writeToOptionAssigns optgenTagsStruct = .ok ["Name", "ID", "Port"] ∧
    ["Name", "ID", "Port"] = optgenTagsStruct.flatMap (fun f =>
      f.names.filter (fun n => isExported n && !(fieldSkipsSnapshot f))) := by
  have hok : writeToOptionAssigns optgenTagsStruct = .ok ["Name", "ID", "Port"] := by
    decide
  exact ⟨hok, C3_skip_readonly_snapshot.2.2.1 optgenTagsStruct
    ["Name", "ID", "Port"] hok⟩

end Optgen

namespace Optgen

theorem flatten_guard_cut (fuel : Nat) (file : GoFile) (c : Config)
    (resolver : ImportResolver) (parent : String) (t : TypeExpr) (pfx : String)
    (cur maxD : Int) (mp : Bool) (h : maxD > 0 ∧ cur > maxD) :
    writeFlattenedOptFuncs (fuel + 1) file c resolver parent t pfx cur maxD mp =
      .ok [] := by
  rw [writeFlattenedOptFuncs, if_pos h]

theorem exFlatMap_eval {α β : Type} (f : α → Except GenError (List β))
    (g : α → List β)
    (hchar : ∀ x, (∃ e, f x = .error e) ∨ f x = .ok (g x)) :
    ∀ (xs : List α) (ds : List β), exFlatMap xs f = .ok ds → ds = xs.flatMap g := by
  intro xs
  induction xs with
  | nil =>
    intro ds h
    cases h
    rfl
  | cons x rest ih =>
    intro ds h
    rw [exFlatMap] at h
    rcases hchar x with ⟨e, he⟩ | hx
    · rw [he] at h
      cases h
    · rw [hx] at h
      cases hrest : exFlatMap rest f with
      | error e => rw [hrest] at h; cases h
      | ok lrest =>
        rw [hrest] at h
        cases h
        rw [List.flatMap_cons, ih lrest hrest]

theorem flatMap_toList_eq_filterMap {α β : Type} (g : α → Option β) :
    ∀ xs : List α, (xs.flatMap (fun x => (g x).toList)) = xs.filterMap g := by
  intro xs
  induction xs with
  | nil => rfl
  | cons x rest ih =>
    rw [List.flatMap_cons, List.filterMap_cons, ih]
    cases g x <;> simp

/-- C5: with flattenDepth = 1 (traversal entered at depth 1), the flattened
setters are exactly those for the eligible (exported, non-skip,
non-readonly) fields directly nested one aggregate level below the root, and
no setter is emitted for any field nested two or more levels below: every
recursive descent is entered at depth 2 and cut off by the depth guard. -/
theorem C5_flatten_depth_one (fuel : Nat) (file : GoFile) (c : Config)
    (resolver : ImportResolver) (parent : String) (t : TypeExpr) (pfx : String)
    (mp : Bool) (ds : List Decl)
    (hok : writeFlattenedOptFuncs (fuel + 2) file c resolver parent t pfx 1 1 mp =
      .ok ds) :
    ds = specDirectFlattenSetters file c parent t pfx mp := by
  rw [writeFlattenedOptFuncs] at hok
  rw [if_neg (by decide)] at hok
  unfold specDirectFlattenSetters
  by_cases hname : getStructTypeName t = ""
  · rw [if_pos hname] at hok
    cases hok
    rw [if_pos hname]
  · rw [if_neg hname] at hok
    rw [if_neg hname]
    cases hfind : findStructDefInFile file (getStructTypeName t) with
    | none =>
      rw [hfind] at hok
      cases hok
      rfl
    | some nestedFields =>
      rw [hfind] at hok
      have hnames : ∀ (nf : Field) (ws : List Decl),
          exFlatMap nf.names (fun nn =>
            if isExported nn = false then .ok []
            else
              match parseOptgenTag nf with
              | .error e => .error e
              | .ok parsed =>
                if parsed.1.Action = OptgenSkip ∨
                    parsed.1.Action = OptgenReadonly then
                  .ok []
                else
                  let decl : Decl :=
                    .flatSetter
                      (formatFunctionName "With" (toTitle pfx ++ toTitle nn)
                        c.structPfx mp)
                      (unexport nn) (toTitle parent) (toTitle nn)
                  let st := isStructTypeAST nf.type resolver
                  let recRes :=
                    if st.1 = true ∧ st.2 = "" then
                      writeFlattenedOptFuncs (fuel + 1) file c resolver
                        (parent ++ "." ++ nn) nf.type
                        (toTitle pfx ++ toTitle nn) (1 + 1) 1 mp
                    else
                      .ok []
                  match recRes with
                  | .error e => .error e
                  | .ok recDecls => .ok (decl :: recDecls)) = .ok ws →
          ws = nf.names.filterMap (fun nn =>
            if flattenEligible nf nn then
              some (.flatSetter
                (formatFunctionName "With" (toTitle pfx ++ toTitle nn)
                  c.structPfx mp)
                (unexport nn) (toTitle parent) (toTitle nn))
            else none) := by
        intro nf ws hws
        rw [← flatMap_toList_eq_filterMap]
        refine exFlatMap_eval _ _ ?_ nf.names ws hws
        intro nn
        by_cases hexp : isExported nn = false
        · right
          rw [if_pos hexp]
          have he : flattenEligible nf nn = false := by
            unfold flattenEligible
            rw [hexp]
            rfl
          rw [he]
          rfl
        · cases hp : parseOptgenTag nf with
          | error e =>
            left
            refine ⟨e, ?_⟩
            rw [if_neg hexp]
          | ok parsed =>
            right
            rw [if_neg hexp]
            dsimp only
            by_cases hskip : parsed.1.Action = OptgenSkip ∨
                parsed.1.Action = OptgenReadonly
            · rw [if_pos hskip]
              have he : flattenEligible nf nn = false := by
                unfold flattenEligible
                rw [hp]
                rcases hskip with hs | hs <;> simp [hs]
              rw [he]
              rfl
            · rw [if_neg hskip]
              have hcut : (if (isStructTypeAST nf.type resolver).1 = true ∧
                    (isStructTypeAST nf.type resolver).2 = "" then
                  writeFlattenedOptFuncs (fuel + 1) file c resolver
                    (parent ++ "." ++ nn) nf.type
                    (toTitle pfx ++ toTitle nn) (1 + 1) 1 mp
                else (.ok [] : Except GenError (List Decl))) = .ok [] := by
                by_cases hst : (isStructTypeAST nf.type resolver).1 = true ∧
                    (isStructTypeAST nf.type resolver).2 = ""
                · rw [if_pos hst]
                  exact flatten_guard_cut fuel file c resolver
                    (parent ++ "." ++ nn) nf.type (toTitle pfx ++ toTitle nn)
                    (1 + 1) 1 mp (by decide)
                · rw [if_neg hst]
              rw [hcut]
              have he : flattenEligible nf nn = true := by
                unfold flattenEligible
                rw [hp]
                have hexp' : isExported nn = true := by simpa using hexp
                simp only [hexp', Bool.true_and]
                rcases not_or.mp hskip with ⟨h1, h2⟩
                simp [h1, h2]
              rw [he]
              rfl
      refine exFlatMap_eval _ _ ?_ nestedFields ds hok
      intro nf
      cases hnf : exFlatMap nf.names _ with
      | error e => exact Or.inl ⟨e, rfl⟩
      | ok ws =>
        right
        rw [hnames nf ws hnf]

end Optgen

namespace Optgen

/-- Witness for C5 on the concrete two-level file: with flattenDepth = 1 the
emitted flattened setters are exactly WithAddressStreet and WithAddressGeo
for the two direct nested fields, and no setter exists for Lat, which is
nested two aggregate levels below the root. -/
theorem C5_witness :
    writeFlattenedOptFuncs 3 flattenTestFile
      { ReceiverId := "c", OptTypeName := "ConfigOption",
        TargetTypeName := "Config", StructName := "Config",
        UsePrefix := false, UseFlatten := false } { pkgToPath := [] }
      "Address" (.ident "Address") "Address" 1 1 true =
      .ok [Decl.flatSetter "WithAddressStreet" "street" "Address" "Street",
        Decl.flatSetter "WithAddressGeo" "geo" "Address" "Geo"] ∧
    [Decl.flatSetter "WithAddressStreet" "street" "Address" "Street",
      Decl.flatSetter "WithAddressGeo" "geo" "Address" "Geo"] =
      specDirectFlattenSetters flattenTestFile
        { ReceiverId := "c", OptTypeName := "ConfigOption",
          TargetTypeName := "Config", StructName := "Config",
          UsePrefix := false, UseFlatten := false }
        "Address" (.ident "Address") "Address" true := by
  have hok : writeFlattenedOptFuncs 3 flattenTestFile
      { ReceiverId := "c", OptTypeName := "ConfigOption",
        TargetTypeName := "Config", StructName := "Config",
        UsePrefix := false, UseFlatten := false } { pkgToPath := [] }
      "Address" (.ident "Address") "Address" 1 1 true =
      .ok [Decl.flatSetter "WithAddressStreet" "street" "Address" "Street",
        Decl.flatSetter "WithAddressGeo" "geo" "Address" "Geo"] := by
    decide
  exact ⟨hok, C5_flatten_depth_one 1 flattenTestFile
    { ReceiverId := "c", OptTypeName := "ConfigOption",
      TargetTypeName := "Config", StructName := "Config",
      UsePrefix := false, UseFlatten := false } { pkgToPath := [] }
    "Address" (.ident "Address") "Address" true
    [Decl.flatSetter "WithAddressStreet" "street" "Address" "Street",
      Decl.flatSetter "WithAddressGeo" "geo" "Address" "Geo"] hok⟩

end Optgen
